import Mathlib

/-!
# Verification of the risk manager and strategy engine

A shallow embedding of `modules/risk_manager.py` and `modules/strategies.py`
over exact rational arithmetic.  Python floats are modelled as `ℚ`; Python
`None` as `Option`; dict/`None` truthiness as explicit emptiness tests; the
Binance client's responses (account balance, symbol info, position info)
are passed as explicit inputs; the module-level configuration constants
(`modules/config.py`, loaded externally) are fields of an explicit
configuration record.  Numbers returned by Python's `round(x, n)` are
modelled with round-half-to-even at `n` decimal digits, and
`int(round(-math.log10(s)))` with an exact rational rounded logarithm.
-/

/-! ## Python numeric primitives -/

/-- Python's `round` to an integer: round half to even (banker's rounding).
For a non-tie the result is the nearest integer `⌊y + 1/2⌋`; at an exact tie
the even neighbour is chosen. -/
def pyRoundInt (y : ℚ) : ℤ :=
  if 2 * (y - ⌊y⌋) = 1 then (if ⌊y⌋ % 2 = 0 then ⌊y⌋ else ⌊y⌋ + 1)
  else ⌊y + 1 / 2⌋

/-- Python's `round(x, n)`: round half to even at `n` decimal digits
(`n` may be negative, as for `round(x, -1)`). -/
def pyRound (x : ℚ) (n : ℤ) : ℚ :=
  (pyRoundInt (x * 10 ^ n) : ℚ) / 10 ^ n

/-- `round(log10 r)` for a positive rational `r`: the integer nearest to
`log10 r`.  `Int.log 10 r` is `⌊log10 r⌋`; the fractional part is below `1/2`
exactly when `r ^ 2 < 10 ^ (2 * ⌊log10 r⌋ + 1)`.  (For rational `r > 0` the
tie `log10 r = k + 1/2` is impossible, so no tie-breaking is needed.) -/
def roundLog10 (r : ℚ) : ℤ :=
  if r ^ 2 < (10 : ℚ) ^ (2 * Int.log 10 r + 1) then Int.log 10 r
  else Int.log 10 r + 1

/-! ## Data model (risk manager)

`SymbolInfo` is the dict returned by `get_symbol_info`, `PositionInfo` the
dict returned by `get_position_info`, `Config` the constants imported from
`modules.config`, and `RiskState` the mutable fields of `RiskManager`
(`self.initial_balance`, `self.last_known_balance`, both `None` in
`__init__`). -/

structure SymbolInfo where
  quantity_precision : ℕ
  min_qty : ℚ
  min_notional : ℚ
  price_precision : ℕ
deriving DecidableEq

structure PositionInfo where
  position_amount : ℚ
  entry_price : ℚ
  leverage : ℚ
deriving DecidableEq

structure Config where
  RISK_PER_TRADE : ℚ
  USE_STOP_LOSS : Bool
  STOP_LOSS_PCT : ℚ
  TRAILING_STOP : Bool
  TRAILING_STOP_PCT : ℚ
  AUTO_COMPOUND : Bool
  COMPOUND_REINVEST_PERCENT : ℚ
deriving DecidableEq

structure RiskState where
  initial_balance : Option ℚ
  last_known_balance : Option ℚ
deriving DecidableEq

/-- Python truthiness of an optional number: `None` and `0` are falsy
(`if stop_loss_price and USE_STOP_LOSS`, `if current_stop and ...`). -/
def truthyQ : Option ℚ → Bool
  | none => false
  | some x => decide (x ≠ 0)

/-! ## risk_manager.py, module-level helpers -/

/-- `get_step_size` (risk_manager.py lines 224-231): returns `min_qty`
itself (the `if float(min_qty) > 0` branch re-assigns the same value). -/
def get_step_size (min_qty : ℚ) : ℚ := min_qty

/-- `round_step_size` (risk_manager.py lines 218-221):
`precision = int(round(-math.log10(step_size)))`, then
`round(math.floor(quantity * 10**precision) / 10**precision, precision)`.
`-log10 step_size = log10 (1/step_size)` is rounded with `roundLog10`. -/
def round_step_size (quantity step_size : ℚ) : ℚ :=
  let precision := roundLog10 step_size⁻¹
  pyRound ((⌊quantity * 10 ^ precision⌋ : ℚ) / 10 ^ precision) precision

/-! ## RiskManager methods -/

/-- `get_current_leverage` (lines 95-100): the position's reported leverage,
defaulting to 1 when there is no position info. -/
def get_current_leverage (position_info : Option PositionInfo) : ℚ :=
  match position_info with
  | some p => p.leverage
  | none => 1

/-- Lines 35-38 of `calculate_position_size`: on the first call
(`self.initial_balance is None`) both balance trackers are set to the
current balance. -/
def init_balance_trackers (st : RiskState) (balance : ℚ) : RiskState :=
  match st.initial_balance with
  | none => ⟨some balance, some balance⟩
  | some _ => st

/-- Lines 40-47 of `calculate_position_size`: when auto-compounding is on
and a last-known balance exists, a positive profit advances
`self.last_known_balance` (the log line has no state effect). -/
def auto_compound_update (cfg : Config) (st : RiskState) (balance : ℚ) : RiskState :=
  if cfg.AUTO_COMPOUND then
    match st.last_known_balance with
    | some l => if balance - l > 0 then { st with last_known_balance := some balance } else st
    | none => st
  else st

/-- Lines 59-75 of `calculate_position_size`: the pre-precision quantity.
With a truthy stop-loss price and the stop-loss feature on it is
`risk_amount / risk_per_unit`; otherwise
`(balance * RISK_PER_TRADE * leverage) / price`. -/
def max_quantity_of (cfg : Config) (position_info : Option PositionInfo)
    (balance price : ℚ) (stop_loss_price : Option ℚ) : ℚ :=
  if truthyQ stop_loss_price && cfg.USE_STOP_LOSS then
    (balance * cfg.RISK_PER_TRADE) / |price - stop_loss_price.getD 0|
  else
    (balance * cfg.RISK_PER_TRADE * get_current_leverage position_info) / price

/-- Lines 77-93 of `calculate_position_size`: floor `max_quantity` to the
step size; when the result is below the minimum notional, raise it to
`ceil(min_notional / price * 10**quantity_precision) / 10**quantity_precision`
if that stays within `max_quantity`, else return the zero sentinel. -/
def finish_position_size (si : SymbolInfo) (price max_quantity : ℚ) : ℚ :=
  let quantity := round_step_size max_quantity (get_step_size si.min_qty)
  if quantity * price < si.min_notional then
    if si.min_notional / price ≤ max_quantity then
      (⌈si.min_notional / price * 10 ^ si.quantity_precision⌉ : ℚ) / 10 ^ si.quantity_precision
    else 0
  else quantity

/-- `calculate_position_size` (lines 19-93).  Returns the computed quantity
together with the updated mutable state.  The zero sentinel is returned when
the balance is non-positive, the symbol info is unavailable, or the guard
`risk_per_unit <= 0` fires in the stop-loss branch (in exact arithmetic
`|price - stop_loss_price| ≤ 0` means the two prices coincide); the
remaining zero return is inside `finish_position_size`. -/
def calculate_position_size (cfg : Config) (st : RiskState) (balance : ℚ)
    (symbol_info : Option SymbolInfo) (position_info : Option PositionInfo)
    (price : ℚ) (stop_loss_price : Option ℚ) : ℚ × RiskState :=
  let st1 := init_balance_trackers st balance
  let st2 := auto_compound_update cfg st1 balance
  if balance ≤ 0 then (0, st2)
  else
    match symbol_info with
    | none => (0, st2)
    | some si =>
      if truthyQ stop_loss_price && cfg.USE_STOP_LOSS then
        if |price - stop_loss_price.getD 0| ≤ 0 then (0, st2)
        else (finish_position_size si price
          (max_quantity_of cfg position_info balance price stop_loss_price), st2)
      else (finish_position_size si price
        (max_quantity_of cfg position_info balance price stop_loss_price), st2)

/-- `calculate_stop_loss` (lines 119-136): `None` when the stop-loss feature
is off; otherwise `entry_price * (1 - STOP_LOSS_PCT)` for side `"BUY"`,
`entry_price * (1 + STOP_LOSS_PCT)` otherwise, rounded to the symbol's price
precision when symbol info is available. -/
def calculate_stop_loss (cfg : Config) (side : String)
    (symbol_info : Option SymbolInfo) (entry_price : ℚ) : Option ℚ :=
  if !cfg.USE_STOP_LOSS then none
  else
    let stop_price := if side = "BUY" then entry_price * (1 - cfg.STOP_LOSS_PCT)
      else entry_price * (1 + cfg.STOP_LOSS_PCT)
    match symbol_info with
    | some si => some (pyRound stop_price si.price_precision)
    | none => some stop_price

/-- `adjust_stop_loss_for_trailing` (lines 157-191).  `position_info` is the
effective position info (the argument, or the client's answer when the
argument was `None`).  For a long the raw candidate
`current_price * (1 - TRAILING_STOP_PCT)` is compared against the
entry-derived stop `calculate_stop_loss(symbol, side, entry_price)` before
any rounding; it is dropped unless strictly greater (for a short, unless
strictly smaller).  A falsy current stop (`None` or `0`) skips the
comparison.  The accepted candidate is rounded to the price precision. -/
def adjust_stop_loss_for_trailing (cfg : Config) (side : String)
    (symbol_info : Option SymbolInfo) (position_info : Option PositionInfo)
    (current_price : ℚ) : Option ℚ :=
  if !cfg.TRAILING_STOP then none
  else
    match position_info with
    | none => none
    | some p =>
      if |p.position_amount| = 0 then none
      else
        let new_stop := if side = "BUY" then current_price * (1 - cfg.TRAILING_STOP_PCT)
          else current_price * (1 + cfg.TRAILING_STOP_PCT)
        let current_stop := calculate_stop_loss cfg side symbol_info p.entry_price
        let blocked := if side = "BUY" then
            truthyQ current_stop && decide (new_stop ≤ current_stop.getD 0)
          else
            truthyQ current_stop && decide (new_stop ≥ current_stop.getD 0)
        if blocked then none
        else
          match symbol_info with
          | some si => some (pyRound new_stop si.price_precision)
          | none => some new_stop

/-- `update_balance_for_compounding` (lines 193-215): `False` when the
feature is off; when no balance snapshot exists yet, both trackers are set
and `False` is returned; otherwise `True` exactly when the balance strictly
increased, advancing the snapshot. -/
def update_balance_for_compounding (cfg : Config) (st : RiskState)
    (current_balance : ℚ) : Bool × RiskState :=
  if !cfg.AUTO_COMPOUND then (false, st)
  else
    match st.last_known_balance with
    | none => (false, ⟨some current_balance, some current_balance⟩)
    | some l =>
      if current_balance - l > 0 then
        (true, { st with last_known_balance := some current_balance })
      else (false, st)

/-! ## strategies.py

The strategies read the last two rows of indicator columns computed by the
`ta` library over the prepared bar sequence (`iloc[-1]` / `iloc[-2]`); the
indicator values for those two rows are the inputs of the signal rules
below.  `StratConfig` holds the RSI thresholds imported from
`modules.config`. -/

inductive TradeSignal where
  | BUY : TradeSignal
  | SELL : TradeSignal
deriving DecidableEq

structure StratConfig where
  RSI_OVERSOLD : ℚ
  RSI_OVERBOUGHT : ℚ
deriving DecidableEq

/-- The last two rows of the indicator columns the strategies consult:
`df['rsi']`, `df['fast_ema']`, `df['slow_ema']`, `df['close']`,
`df['bb_low']`, `df['bb_high']` at `iloc[-2]` and `iloc[-1]`. -/
structure IndicatorData where
  prev_rsi : ℚ
  last_rsi : ℚ
  prev_fast : ℚ
  prev_slow : ℚ
  current_fast : ℚ
  current_slow : ℚ
  prev_close : ℚ
  current_close : ℚ
  prev_bb_low : ℚ
  prev_bb_high : ℚ
  current_bb_low : ℚ
  current_bb_high : ℚ
deriving DecidableEq

/-- `RSIStrategy.get_signal` (strategies.py lines 51-72), as a rule on the
last two RSI values: `BUY` when `last_rsi < oversold and prev_rsi >=
oversold` (RSI crossed below the oversold level), `SELL` when `last_rsi >
overbought and prev_rsi <= overbought`, else `None`. -/
def rsi_signal_rule (oversold overbought prev_rsi last_rsi : ℚ) : Option TradeSignal :=
  if last_rsi < oversold ∧ prev_rsi ≥ oversold then some TradeSignal.BUY
  else if last_rsi > overbought ∧ prev_rsi ≤ overbought then some TradeSignal.SELL
  else none

/-- `RSIStrategy.get_signal` over the indicator rows. -/
def RSIStrategy_get_signal (sc : StratConfig) (d : IndicatorData) : Option TradeSignal :=
  rsi_signal_rule sc.RSI_OVERSOLD sc.RSI_OVERBOUGHT d.prev_rsi d.last_rsi

/-- The signal `RSIStrategy.get_signal` emits at each successive bar of an
RSI series: entry `i` of the result is the signal computed from the RSI
values at bars `i` and `i+1` (the window ending at bar `i+1`). -/
def rsi_signals_over (oversold overbought : ℚ) : List ℚ → List (Option TradeSignal)
  | a :: b :: rest =>
    rsi_signal_rule oversold overbought a b :: rsi_signals_over oversold overbought (b :: rest)
  | _ => []

/-- `EMAStrategy.get_signal` (lines 82-110): `BUY` on the fast EMA crossing
from `<=` to `>` the slow EMA, `SELL` on the mirrored downward cross. -/
def EMAStrategy_get_signal (d : IndicatorData) : Option TradeSignal :=
  if d.current_fast > d.current_slow ∧ d.prev_fast ≤ d.prev_slow then some TradeSignal.BUY
  else if d.current_fast < d.current_slow ∧ d.prev_fast ≥ d.prev_slow then some TradeSignal.SELL
  else none

/-- `RSIEMAStrategy.get_signal` (lines 120-153): delegates to the two
sub-strategies on the same bars, then `BUY` iff RSI says `BUY` and EMA says
`BUY` or nothing, `SELL` iff RSI says `SELL` and EMA says `SELL` or
nothing, else `None`. -/
def RSIEMAStrategy_get_signal (sc : StratConfig) (d : IndicatorData) : Option TradeSignal :=
  let rsi_signal := RSIStrategy_get_signal sc d
  let ema_signal := EMAStrategy_get_signal d
  if rsi_signal = some TradeSignal.BUY ∧
      (ema_signal = some TradeSignal.BUY ∨ ema_signal = none) then some TradeSignal.BUY
  else if rsi_signal = some TradeSignal.SELL ∧
      (ema_signal = some TradeSignal.SELL ∨ ema_signal = none) then some TradeSignal.SELL
  else none

/-- `BollingerBandsStrategy.get_signal` (lines 163-195): `BUY` when the
close crosses from `>=` the lower band to below it, `SELL` on the mirrored
cross above the upper band. -/
def BollingerBands_get_signal (d : IndicatorData) : Option TradeSignal :=
  if d.current_close < d.current_bb_low ∧ d.prev_close ≥ d.prev_bb_low then some TradeSignal.BUY
  else if d.current_close > d.current_bb_high ∧ d.prev_close ≤ d.prev_bb_high then
    some TradeSignal.SELL
  else none

/-- The four strategy classes the factory's registry constructs. -/
inductive StrategyKind where
  | RSI : StrategyKind
  | EMA_Cross : StrategyKind
  | RSI_EMA : StrategyKind
  | Bollinger_Bands : StrategyKind
deriving DecidableEq

/-- `get_strategy` (lines 198-211): look the name up in the fixed registry;
an unknown name falls back (with a warning) to the `RSI_EMA` composite. -/
def get_strategy (strategy_name : String) : StrategyKind :=
  if strategy_name = "RSI" then StrategyKind.RSI
  else if strategy_name = "EMA_Cross" then StrategyKind.EMA_Cross
  else if strategy_name = "RSI_EMA" then StrategyKind.RSI_EMA
  else if strategy_name = "Bollinger_Bands" then StrategyKind.Bollinger_Bands
  else StrategyKind.RSI_EMA

/-- `get_signal` dispatch over the strategy classes. -/
def strategy_get_signal (sc : StratConfig) : StrategyKind → IndicatorData → Option TradeSignal
  | StrategyKind.RSI => RSIStrategy_get_signal sc
  | StrategyKind.EMA_Cross => EMAStrategy_get_signal
  | StrategyKind.RSI_EMA => RSIEMAStrategy_get_signal sc
  | StrategyKind.Bollinger_Bands => BollingerBands_get_signal

/-! ## Helper lemmas on the numeric primitives -/

theorem pyRoundInt_intCast (m : ℤ) : pyRoundInt (m : ℚ) = m := by
  unfold pyRoundInt
  rw [Int.floor_intCast]
  have h1 : ¬ (2 * ((m : ℚ) - m) = 1) := by norm_num
  rw [if_neg h1, Int.floor_int_add]
  have h2 : ⌊(1 / 2 : ℚ)⌋ = 0 := by
    rw [Int.floor_eq_iff] <;> norm_num
  omega

theorem pyRound_int_div (m n : ℤ) : pyRound ((m : ℚ) / 10 ^ n) n = (m : ℚ) / 10 ^ n := by
  unfold pyRound
  have hne : ((10 : ℚ) ^ n) ≠ 0 := zpow_ne_zero n (by norm_num)
  rw [div_mul_cancel₀ _ hne, pyRoundInt_intCast]

theorem roundLog10_zpow (k : ℤ) : roundLog10 ((10 : ℚ) ^ k) = k := by
  unfold roundLog10
  have hlog : Int.log 10 ((10 : ℚ) ^ k) = k := Int.log_zpow (by norm_num) k
  rw [hlog, if_pos]
  rw [show ((10 : ℚ) ^ k) ^ 2 = (10 : ℚ) ^ (2 * k) by
    rw [← zpow_natCast (((10:ℚ)) ^ k) 2, ← zpow_mul]; ring_nf]
  exact zpow_lt_zpow_right₀ (by norm_num) (by omega)

theorem round_step_size_eq (q s : ℚ) :
    round_step_size q s =
      (⌊q * 10 ^ roundLog10 s⁻¹⌋ : ℚ) / 10 ^ roundLog10 s⁻¹ := by
  unfold round_step_size
  exact pyRound_int_div _ _

theorem round_step_size_zpow (q : ℚ) (k : ℤ) :
    round_step_size q ((10 : ℚ) ^ (-k)) = (⌊q * 10 ^ k⌋ : ℚ) / 10 ^ k := by
  rw [round_step_size_eq, zpow_neg, inv_inv, roundLog10_zpow]

theorem pyRoundInt_le (y : ℚ) : (pyRoundInt y : ℚ) ≤ y + 1 / 2 := by
  unfold pyRoundInt
  split
  · next h =>
    have hy : y = (⌊y⌋ : ℚ) + 1 / 2 := by linarith
    split <;> push_cast <;> linarith
  · next h =>
    calc ((⌊y + 1 / 2⌋ : ℤ) : ℚ) ≤ y + 1 / 2 := Int.floor_le _

theorem le_pyRoundInt (y : ℚ) : y - 1 / 2 ≤ (pyRoundInt y : ℚ) := by
  unfold pyRoundInt
  split
  · next h =>
    have hy : y = (⌊y⌋ : ℚ) + 1 / 2 := by linarith
    split <;> push_cast <;> linarith
  · next h =>
    have := Int.lt_floor_add_one (y + 1 / 2)
    push_cast at this ⊢
    linarith

theorem pyRound_le (x : ℚ) (n : ℤ) : pyRound x n ≤ x + (10 : ℚ) ^ (-n) / 2 := by
  unfold pyRound
  have hpos : (0 : ℚ) < (10 : ℚ) ^ n := zpow_pos (by norm_num) n
  rw [div_le_iff₀ hpos]
  have := pyRoundInt_le (x * 10 ^ n)
  calc (pyRoundInt (x * 10 ^ n) : ℚ) ≤ x * 10 ^ n + 1 / 2 := this
    _ = (x + (10 : ℚ) ^ (-n) / 2) * 10 ^ n := by
        rw [zpow_neg]
        field_simp
        ring

theorem le_pyRound (x : ℚ) (n : ℤ) : x - (10 : ℚ) ^ (-n) / 2 ≤ pyRound x n := by
  unfold pyRound
  have hpos : (0 : ℚ) < (10 : ℚ) ^ n := zpow_pos (by norm_num) n
  rw [le_div_iff₀ hpos]
  have := le_pyRoundInt (x * 10 ^ n)
  calc (x - (10 : ℚ) ^ (-n) / 2) * 10 ^ n = x * 10 ^ n - 1 / 2 := by
        rw [zpow_neg]
        field_simp
        ring
    _ ≤ (pyRoundInt (x * 10 ^ n) : ℚ) := this

theorem pyRoundInt_mono {y1 y2 : ℚ} (h : y1 ≤ y2) : pyRoundInt y1 ≤ pyRoundInt y2 := by
  rcases eq_or_lt_of_le h with rfl | hlt
  · exact le_refl _
  have hfl2 : ⌊y1 + 1 / 2⌋ ≤ ⌊y2 + 1 / 2⌋ := Int.floor_mono (by linarith)
  unfold pyRoundInt
  by_cases h1 : 2 * (y1 - ⌊y1⌋) = 1
  · rw [if_pos h1]
    have hy1 : y1 = (⌊y1⌋ : ℚ) + 1 / 2 := by linarith
    have hstep : ⌊y1 + 1 / 2⌋ = ⌊y1⌋ + 1 := by
      have hcast : y1 + 1 / 2 = ((⌊y1⌋ + 1 : ℤ) : ℚ) := by push_cast; linarith
      rw [hcast, Int.floor_intCast]
    by_cases h2 : 2 * (y2 - ⌊y2⌋) = 1
    · rw [if_pos h2]
      have hy2 : y2 = (⌊y2⌋ : ℚ) + 1 / 2 := by linarith
      have hff : ⌊y1⌋ < ⌊y2⌋ := by
        have hq : (⌊y1⌋ : ℚ) < (⌊y2⌋ : ℚ) := by linarith
        exact_mod_cast hq
      split <;> split <;> omega
    · rw [if_neg h2]
      split <;> omega
  · rw [if_neg h1]
    by_cases h2 : 2 * (y2 - ⌊y2⌋) = 1
    · rw [if_pos h2]
      have hy2 : y2 = (⌊y2⌋ : ℚ) + 1 / 2 := by linarith
      have hup : ⌊y1 + 1 / 2⌋ < ⌊y2⌋ + 1 := by
        apply Int.floor_lt.mpr
        push_cast
        linarith
      split <;> omega
    · rw [if_neg h2]; exact hfl2

theorem pyRound_mono {x1 x2 : ℚ} (n : ℤ) (h : x1 ≤ x2) : pyRound x1 n ≤ pyRound x2 n := by
  unfold pyRound
  have hpos : (0 : ℚ) < (10 : ℚ) ^ n := zpow_pos (by norm_num) n
  have hmono : pyRoundInt (x1 * 10 ^ n) ≤ pyRoundInt (x2 * 10 ^ n) :=
    pyRoundInt_mono (by exact mul_le_mul_of_nonneg_right h (le_of_lt hpos))
  exact (div_le_div_right hpos).mpr (by exact_mod_cast hmono)

/-! ## Structural lemmas about `calculate_position_size` -/

/-- The state component of `calculate_position_size` is the tracker
initialization followed by the auto-compound update, on every path. -/
theorem calculate_position_size_snd (cfg : Config) (st : RiskState) (balance : ℚ)
    (symbol_info : Option SymbolInfo) (position_info : Option PositionInfo)
    (price : ℚ) (stop_loss_price : Option ℚ) :
    (calculate_position_size cfg st balance symbol_info position_info price stop_loss_price).2 =
      auto_compound_update cfg (init_balance_trackers st balance) balance := by
  unfold calculate_position_size
  split
  · rfl
  · match symbol_info with
    | none => rfl
    | some si =>
      dsimp only
      split
      · split <;> rfl
      · rfl

/-- When the balance is positive, symbol info is available and the
`risk_per_unit <= 0` guard does not fire, the returned quantity is the
post-processing of the branch-selected pre-precision quantity. -/
theorem calculate_position_size_fst (cfg : Config) (st : RiskState) (balance : ℚ)
    (si : SymbolInfo) (pi : Option PositionInfo) (price : ℚ) (slp : Option ℚ)
    (hb : ¬ balance ≤ 0)
    (hg : (truthyQ slp && cfg.USE_STOP_LOSS) = true → ¬ |price - slp.getD 0| ≤ 0) :
    (calculate_position_size cfg st balance (some si) pi price slp).1 =
      finish_position_size si price (max_quantity_of cfg pi balance price slp) := by
  unfold calculate_position_size
  rw [if_neg hb]
  dsimp only
  by_cases hc : (truthyQ slp && cfg.USE_STOP_LOSS) = true
  · rw [if_pos hc, if_neg (hg hc)]
  · rw [if_neg hc]

/-! ## C7: RSI threshold-crossing signal -/

/-- C7 counterexample: with oversold 30 and overbought 70, an RSI move from
25 on the previous bar to 32 on the current bar (the upward cross of the
oversold threshold the claim describes) makes `RSIStrategy.get_signal`
return `None`, not the claimed `BUY`: the code's BUY condition is
`last_rsi < oversold and prev_rsi >= oversold`, a downward cross. -/
theorem rsi_upward_cross_emits_no_buy :
    rsi_signal_rule 30 70 25 32 = none ∧
    rsi_signals_over 30 70 [25, 25, 32, 32] = [none, none, none] := by
  constructor
  · decide
  · decide

/-- C7 (corrected): the BUY signal fires exactly once, on the bar where the
RSI value crosses downward through the oversold threshold (here 32 → 25
through 30), and the bars before and after that transition produce no
signal. -/
theorem rsi_downward_cross_buy_once :
    rsi_signals_over 30 70 [32, 32, 25, 25] = [none, some TradeSignal.BUY, none] := by
  decide

/-! ## C8: composite RSI+EMA agreement filter -/

/-- C8 (confirmed): the composite strategy returns `BUY` exactly when the
RSI sub-signal is `BUY` and the EMA sub-signal is `BUY` or `None`, returns
`SELL` exactly when the RSI sub-signal is `SELL` and the EMA sub-signal is
`SELL` or `None`, and in particular returns `None` when RSI says `BUY` but
EMA says `SELL`. -/
theorem rsi_ema_composite_agreement (sc : StratConfig) (d : IndicatorData) :
    (RSIEMAStrategy_get_signal sc d = some TradeSignal.BUY ↔
      RSIStrategy_get_signal sc d = some TradeSignal.BUY ∧
        (EMAStrategy_get_signal d = some TradeSignal.BUY ∨ EMAStrategy_get_signal d = none)) ∧
    (RSIEMAStrategy_get_signal sc d = some TradeSignal.SELL ↔
      RSIStrategy_get_signal sc d = some TradeSignal.SELL ∧
        (EMAStrategy_get_signal d = some TradeSignal.SELL ∨ EMAStrategy_get_signal d = none)) ∧
    (RSIStrategy_get_signal sc d = some TradeSignal.BUY ∧
        EMAStrategy_get_signal d = some TradeSignal.SELL →
      RSIEMAStrategy_get_signal sc d = none) := by
  unfold RSIEMAStrategy_get_signal
  rcases hr : RSIStrategy_get_signal sc d with _ | s1 <;>
    rcases he : EMAStrategy_get_signal d with _ | s2 <;>
      first
        | (cases s1 <;> cases s2 <;> simp)
        | (cases s1 <;> simp)
        | (cases s2 <;> simp)
        | simp

/-! ## C9: factory fallback for unknown strategy names -/

/-- C9 (confirmed): any name outside the registry
`{RSI, EMA_Cross, RSI_EMA, Bollinger_Bands}` makes the factory return the
RSI+EMA composite, whose `get_signal` therefore agrees with the explicitly
requested composite on every input. -/
theorem get_strategy_unknown_name (name : String)
    (h1 : name ≠ "RSI") (h2 : name ≠ "EMA_Cross")
    (h3 : name ≠ "RSI_EMA") (h4 : name ≠ "Bollinger_Bands") :
    get_strategy name = StrategyKind.RSI_EMA ∧
    ∀ (sc : StratConfig) (d : IndicatorData),
      strategy_get_signal sc (get_strategy name) d =
        strategy_get_signal sc StrategyKind.RSI_EMA d := by
  have hg : get_strategy name = StrategyKind.RSI_EMA := by
    unfold get_strategy
    rw [if_neg h1, if_neg h2, if_neg h3, if_neg h4]
  exact ⟨hg, fun sc d => by rw [hg]⟩

/-- C9 witness: the unknown name `"MACD"` falls back to the composite. -/
theorem get_strategy_unknown_name_witness :
    get_strategy "MACD" = StrategyKind.RSI_EMA ∧
    ∀ (sc : StratConfig) (d : IndicatorData),
      strategy_get_signal sc (get_strategy "MACD") d =
        strategy_get_signal sc StrategyKind.RSI_EMA d :=
  get_strategy_unknown_name "MACD" (by decide) (by decide) (by decide) (by decide)

/-! ## C6: compounding balance tracker -/

/-- C6 (corrected): `update_balance_for_compounding` returns `false` when
auto-compounding is off; it returns `false` and initializes both balance
trackers when invoked while `last_known_balance` is still unset (as on a
fresh `RiskManager` whose other methods have not run); and once a snapshot
`l` exists it returns `true` exactly when the balance strictly increased,
advancing the snapshot in that case and leaving the state unchanged
otherwise. -/
theorem update_balance_for_compounding_cases (cfg : Config) (st : RiskState) (bal : ℚ) :
    (cfg.AUTO_COMPOUND = false → update_balance_for_compounding cfg st bal = (false, st)) ∧
    (cfg.AUTO_COMPOUND = true → st.last_known_balance = none →
      update_balance_for_compounding cfg st bal = (false, ⟨some bal, some bal⟩)) ∧
    (∀ l : ℚ, cfg.AUTO_COMPOUND = true → st.last_known_balance = some l →
      ((update_balance_for_compounding cfg st bal).1 = true ↔ l < bal) ∧
      (l < bal → (update_balance_for_compounding cfg st bal).2 =
        { st with last_known_balance := some bal }) ∧
      (¬ l < bal → (update_balance_for_compounding cfg st bal).2 = st)) := by
  refine ⟨fun hoff => ?_, fun hon hnone => ?_, fun l hon hsome => ?_⟩
  · unfold update_balance_for_compounding
    rw [hoff]
    rfl
  · unfold update_balance_for_compounding
    rw [hon, hnone]
    rfl
  · unfold update_balance_for_compounding
    rw [hon, hsome]
    by_cases hlt : bal - l > 0
    · have hl : l < bal := by linarith
      simp [hlt, hl]
    · have hl : ¬ l < bal := fun h => hlt (by linarith)
      simp [hlt, hl]

/-- Configuration used in the C6 counterexample: auto-compounding enabled. -/
def compoundCfg : Config := ⟨1/100, false, 0, false, 0, true, 1/2⟩

/-- Symbol info used in the C6 counterexample. -/
def compoundSymbol : SymbolInfo := ⟨3, 1/10, 10, 2⟩

/-- C6 counterexample: on a fresh `RiskManager`, one prior call to
`calculate_position_size` (balance 100) initializes the balance trackers, so
the very first invocation of `update_balance_for_compounding` (balance 200)
returns `true`, not the `false` the claim requires of a first invocation
regardless of balance. -/
theorem update_balance_first_call_true :
    (update_balance_for_compounding compoundCfg
      (calculate_position_size compoundCfg ⟨none, none⟩ 100
        (some compoundSymbol) none 3 none).2 200).1 = true := by
  rw [calculate_position_size_snd]
  norm_num [init_balance_trackers, auto_compound_update, update_balance_for_compounding,
    compoundCfg]

/-! ## Evaluation lemmas for `pyRound` at concrete inputs -/

theorem pyRoundInt_eq_of_lt_half (y : ℚ) (f : ℤ)
    (h1 : (f : ℚ) ≤ y) (h2 : y < (f : ℚ) + 1 / 2) : pyRoundInt y = f := by
  have hfl : ⌊y⌋ = f := by
    rw [Int.floor_eq_iff]
    constructor
    · exact h1
    · push_cast
      linarith
  unfold pyRoundInt
  rw [hfl, if_neg (by intro hc; nlinarith), Int.floor_eq_iff.mpr ⟨h1.trans (by linarith), by push_cast; linarith⟩]

theorem pyRoundInt_eq_of_gt_half (y : ℚ) (f : ℤ)
    (h1 : (f : ℚ) + 1 / 2 < y) (h2 : y < (f : ℚ) + 1) : pyRoundInt y = f + 1 := by
  have hfl : ⌊y⌋ = f := by
    rw [Int.floor_eq_iff]
    constructor
    · linarith
    · push_cast
      linarith
  unfold pyRoundInt
  rw [hfl, if_neg (by intro hc; nlinarith)]
  rw [Int.floor_eq_iff]
  push_cast
  constructor <;> linarith

theorem pyRound_eq_of_lt_half (x : ℚ) (n : ℤ) (f : ℤ)
    (h1 : (f : ℚ) ≤ x * 10 ^ n) (h2 : x * 10 ^ n < (f : ℚ) + 1 / 2) :
    pyRound x n = (f : ℚ) / 10 ^ n := by
  unfold pyRound
  rw [pyRoundInt_eq_of_lt_half _ f h1 h2]

theorem pyRound_eq_of_gt_half (x : ℚ) (n : ℤ) (f : ℤ)
    (h1 : (f : ℚ) + 1 / 2 < x * 10 ^ n) (h2 : x * 10 ^ n < (f : ℚ) + 1) :
    pyRound x n = ((f + 1 : ℤ) : ℚ) / 10 ^ n := by
  unfold pyRound
  rw [pyRoundInt_eq_of_gt_half _ f h1 h2]

/-- Evaluation of `calculate_stop_loss` when the feature is on and symbol
info is present. -/
theorem calculate_stop_loss_eval (cfg : Config) (side : String) (si : SymbolInfo)
    (entry : ℚ) (hon : cfg.USE_STOP_LOSS = true) :
    calculate_stop_loss cfg side (some si) entry =
      some (pyRound
        (if side = "BUY" then entry * (1 - cfg.STOP_LOSS_PCT)
          else entry * (1 + cfg.STOP_LOSS_PCT)) si.price_precision) := by
  unfold calculate_stop_loss
  rw [hon]
  rfl

/-! ## C4: stop-loss placement relative to entry -/

/-- C4 (corrected): `calculate_stop_loss` returns `none` when the stop-loss
feature is off.  When it is on with `STOP_LOSS_PCT > 0` and `0 < entry`, the
returned value is `entry * (1 - pct)` for a long and `entry * (1 + pct)` for
a short, rounded to the symbol's price precision when symbol info exists;
without symbol info the unrounded value is strictly below (long) or above
(short) the entry, and with rounding the strict inequalities hold whenever
the stop distance `entry * pct` exceeds half a price tick
`10 ^ (-price_precision) / 2` (rounding can otherwise return the entry price
itself, as the counterexample shows). -/
theorem calculate_stop_loss_side_bounds (cfg : Config) (si : SymbolInfo) (entry : ℚ)
    (hpct : 0 < cfg.STOP_LOSS_PCT) (hentry : 0 < entry) :
    (cfg.USE_STOP_LOSS = false → ∀ (side : String) (osi : Option SymbolInfo),
      calculate_stop_loss cfg side osi entry = none) ∧
    (cfg.USE_STOP_LOSS = true →
      (calculate_stop_loss cfg "BUY" none entry = some (entry * (1 - cfg.STOP_LOSS_PCT)) ∧
        entry * (1 - cfg.STOP_LOSS_PCT) < entry) ∧
      (calculate_stop_loss cfg "SELL" none entry = some (entry * (1 + cfg.STOP_LOSS_PCT)) ∧
        entry < entry * (1 + cfg.STOP_LOSS_PCT)) ∧
      (calculate_stop_loss cfg "BUY" (some si) entry =
        some (pyRound (entry * (1 - cfg.STOP_LOSS_PCT)) si.price_precision)) ∧
      (calculate_stop_loss cfg "SELL" (some si) entry =
        some (pyRound (entry * (1 + cfg.STOP_LOSS_PCT)) si.price_precision)) ∧
      ((10 : ℚ) ^ (-(si.price_precision : ℤ)) / 2 < entry * cfg.STOP_LOSS_PCT →
        pyRound (entry * (1 - cfg.STOP_LOSS_PCT)) si.price_precision < entry ∧
        entry < pyRound (entry * (1 + cfg.STOP_LOSS_PCT)) si.price_precision)) := by
  constructor
  · intro hoff side osi
    unfold calculate_stop_loss
    rw [hoff]
    rfl
  · intro hon
    refine ⟨⟨?_, by nlinarith⟩, ⟨?_, by nlinarith⟩, ?_, ?_, ?_⟩
    · unfold calculate_stop_loss
      rw [hon]
      simp
    · unfold calculate_stop_loss
      rw [hon]
      simp
    · unfold calculate_stop_loss
      rw [hon]
      simp
    · unfold calculate_stop_loss
      rw [hon]
      simp
    · intro htick
      constructor
      · have hle := pyRound_le (entry * (1 - cfg.STOP_LOSS_PCT)) (si.price_precision : ℤ)
        have hx : entry * (1 - cfg.STOP_LOSS_PCT) = entry - entry * cfg.STOP_LOSS_PCT := by
          ring
        linarith [hle, hx, htick]
      · have hge := le_pyRound (entry * (1 + cfg.STOP_LOSS_PCT)) (si.price_precision : ℤ)
        have hx : entry * (1 + cfg.STOP_LOSS_PCT) = entry + entry * cfg.STOP_LOSS_PCT := by
          ring
        linarith [hge, hx, htick]

/-- Configuration for the C4 counterexample: stop-loss on with a very small
percentage. -/
def stopCfg : Config := ⟨1/100, true, 1/10000, false, 0, false, 0⟩

/-- Symbol info for the C4 counterexample: one decimal of price precision. -/
def stopSymbol : SymbolInfo := ⟨0, 0, 0, 1⟩

/-- C4 counterexample: with the feature enabled, `STOP_LOSS_PCT = 1/10000 >
0` and price precision 1, a long entry at 100 produces the raw stop `99.99`,
which rounds back up to `100.0`: the returned stop equals the entry price,
not strictly below it. -/
theorem stop_loss_rounds_back_to_entry :
    0 < stopCfg.STOP_LOSS_PCT ∧ stopCfg.USE_STOP_LOSS = true ∧
    calculate_stop_loss stopCfg "BUY" (some stopSymbol) 100 = some 100 := by
  refine ⟨by norm_num [stopCfg], rfl, ?_⟩
  rw [calculate_stop_loss_eval stopCfg "BUY" stopSymbol 100 rfl, if_pos rfl]
  congr 1
  rw [show (100 * (1 - stopCfg.STOP_LOSS_PCT) : ℚ) = 9999 / 100 by norm_num [stopCfg]]
  rw [show ((stopSymbol.price_precision : ℕ) : ℤ) = 1 from rfl]
  rw [pyRound_eq_of_gt_half (9999 / 100) 1 999 (by rw [zpow_one]; norm_num)
    (by rw [zpow_one]; norm_num)]
  rw [zpow_one]
  norm_num

/-- C4 witness: with stop-loss on, `STOP_LOSS_PCT = 1/10 > 0` and entry 100,
the unrounded long stop is `100 * (1 - 1/10) = 90 < 100`. -/
theorem calculate_stop_loss_side_bounds_witness :
    calculate_stop_loss ⟨0, true, 1/10, false, 0, false, 0⟩ "BUY" none 100 =
      some (100 * (1 - (1 : ℚ)/10)) ∧ 100 * (1 - (1 : ℚ)/10) < 100 :=
  ((calculate_stop_loss_side_bounds ⟨0, true, 1/10, false, 0, false, 0⟩ ⟨0, 0, 0, 2⟩ 100
    (by norm_num) (by norm_num)).2 rfl).1

/-! ## C5: trailing stop ratchet for a long position -/

/-- Evaluation of `adjust_stop_loss_for_trailing` for a long with an open
position and a truthy current stop `c`. -/
theorem adjust_trailing_buy_eval (cfg : Config) (osi : Option SymbolInfo)
    (p : PositionInfo) (price c : ℚ)
    (hT : cfg.TRAILING_STOP = true) (hpos : p.position_amount ≠ 0)
    (hc : calculate_stop_loss cfg "BUY" osi p.entry_price = some c) (hc0 : c ≠ 0) :
    adjust_stop_loss_for_trailing cfg "BUY" osi (some p) price =
      if price * (1 - cfg.TRAILING_STOP_PCT) ≤ c then none
      else match osi with
        | some si => some (pyRound (price * (1 - cfg.TRAILING_STOP_PCT)) si.price_precision)
        | none => some (price * (1 - cfg.TRAILING_STOP_PCT)) := by
  unfold adjust_stop_loss_for_trailing
  rw [hT]
  simp only [Bool.not_true, Bool.false_eq_true, if_false]
  rw [if_neg (by simpa [abs_eq_zero] using hpos)]
  simp only [if_pos rfl, hc]
  simp only [truthyQ, hc0, decide_not, Option.getD_some]
  by_cases hble : price * (1 - cfg.TRAILING_STOP_PCT) ≤ c
  · rw [if_pos hble]
    simp [hble]
  · rw [if_neg hble]
    simp [hble]

/-- C5 (confirmed): for a long with trailing stop on, an open position and a
truthy entry-derived stop `c`, the adjustment returns a value exactly when
the raw candidate `current_price * (1 - TRAILING_STOP_PCT)` is strictly
above `c` (otherwise it returns none); and whenever two calls with prices
`p1 ≤ p2` both return a stop, the later stop is at least the earlier one
(with `TRAILING_STOP_PCT ≤ 1`), so the returned stop never decreases as the
price rises. -/
theorem trailing_stop_long_ratchet (cfg : Config) (osi : Option SymbolInfo)
    (p : PositionInfo) (price p1 p2 r1 r2 c : ℚ)
    (hT : cfg.TRAILING_STOP = true) (hpos : p.position_amount ≠ 0)
    (ht1 : cfg.TRAILING_STOP_PCT ≤ 1)
    (hc : calculate_stop_loss cfg "BUY" osi p.entry_price = some c) (hc0 : c ≠ 0) :
    (adjust_stop_loss_for_trailing cfg "BUY" osi (some p) price ≠ none ↔
      c < price * (1 - cfg.TRAILING_STOP_PCT)) ∧
    (p1 ≤ p2 →
      adjust_stop_loss_for_trailing cfg "BUY" osi (some p) p1 = some r1 →
      adjust_stop_loss_for_trailing cfg "BUY" osi (some p) p2 = some r2 →
      r1 ≤ r2) := by
  constructor
  · rw [adjust_trailing_buy_eval cfg osi p price c hT hpos hc hc0]
    by_cases hble : price * (1 - cfg.TRAILING_STOP_PCT) ≤ c
    · rw [if_pos hble]
      simp only [ne_eq, not_true_eq_false, false_iff, not_lt]
      exact hble
    · rw [if_neg hble]
      have hlt : c < price * (1 - cfg.TRAILING_STOP_PCT) := lt_of_not_le hble
      rcases osi with _ | si <;> simp [hlt]
  · intro h12 h1 h2
    rw [adjust_trailing_buy_eval cfg osi p p1 c hT hpos hc hc0] at h1
    rw [adjust_trailing_buy_eval cfg osi p p2 c hT hpos hc hc0] at h2
    have hmul : p1 * (1 - cfg.TRAILING_STOP_PCT) ≤ p2 * (1 - cfg.TRAILING_STOP_PCT) :=
      mul_le_mul_of_nonneg_right h12 (by linarith)
    by_cases hb1 : p1 * (1 - cfg.TRAILING_STOP_PCT) ≤ c
    · rw [if_pos hb1] at h1
      exact absurd h1 (by simp)
    · rw [if_neg hb1] at h1
      by_cases hb2 : p2 * (1 - cfg.TRAILING_STOP_PCT) ≤ c
      · exact absurd hb2 (by intro hle; exact hb1 (le_trans hmul hle))
      · rw [if_neg hb2] at h2
        rcases osi with _ | si
        · rw [Option.some_inj] at h1 h2
          rw [← h1, ← h2]
          exact hmul
        · rw [Option.some_inj] at h1 h2
          rw [← h1, ← h2]
          exact pyRound_mono _ hmul

/-- C5 witness configuration: stop-loss 10%, trailing stop 1%. -/
def trailCfg : Config := ⟨0, true, 1/10, true, 1/100, false, 0⟩

/-- C5 witness position: long 1 unit from entry 100. -/
def trailPos : PositionInfo := ⟨1, 100, 1⟩

/-- C5 witness: entry 100 gives stop 90; at price 200 the candidate
`200 * (1 - 1/100) = 198 > 90` is accepted, and two accepted stops at
prices 100 and 200 never decrease. -/
theorem trailing_stop_long_ratchet_witness :
    (adjust_stop_loss_for_trailing trailCfg "BUY" none (some trailPos) 200 ≠ none ↔
      (90 : ℚ) < 200 * (1 - trailCfg.TRAILING_STOP_PCT)) ∧
    ((100 : ℚ) ≤ 200 →
      adjust_stop_loss_for_trailing trailCfg "BUY" none (some trailPos) 100 = some 99 →
      adjust_stop_loss_for_trailing trailCfg "BUY" none (some trailPos) 200 = some 198 →
      (99 : ℚ) ≤ 198) :=
  trailing_stop_long_ratchet trailCfg none trailPos 200 100 200 99 198 90
    rfl (by norm_num [trailPos]) (by norm_num [trailCfg])
    (by unfold calculate_stop_loss trailCfg trailPos; norm_num) (by norm_num)

/-! ## Case analysis of the precision / minimum-notional post-processing -/

/-- For a positive price and minimum notional: the post-processing returns 0
exactly when the step-floored quantity is below the minimum notional and the
minimum notionally-required quantity exceeds `max_quantity`; every nonzero
result satisfies the minimum notional; and when the floored quantity already
meets the minimum notional it is returned unchanged. -/
theorem finish_position_size_cases (si : SymbolInfo) (price maxq : ℚ)
    (hp : 0 < price) (hmn : 0 < si.min_notional) :
    (finish_position_size si price maxq = 0 ↔
      (round_step_size maxq (get_step_size si.min_qty) * price < si.min_notional ∧
        maxq < si.min_notional / price)) ∧
    (finish_position_size si price maxq ≠ 0 →
      si.min_notional ≤ finish_position_size si price maxq * price) ∧
    (si.min_notional ≤ round_step_size maxq (get_step_size si.min_qty) * price →
      finish_position_size si price maxq = round_step_size maxq (get_step_size si.min_qty)) := by
  unfold finish_position_size
  by_cases h1 : round_step_size maxq (get_step_size si.min_qty) * price < si.min_notional
  · rw [if_pos h1]
    by_cases h2 : si.min_notional / price ≤ maxq
    · rw [if_pos h2]
      have hx : (0 : ℚ) < si.min_notional / price * 10 ^ si.quantity_precision :=
        mul_pos (div_pos hmn hp) (by positivity)
      have hceil : (0 : ℤ) < ⌈si.min_notional / price * 10 ^ si.quantity_precision⌉ :=
        Int.ceil_pos.mpr hx
      have hval : (0 : ℚ) <
          (⌈si.min_notional / price * 10 ^ si.quantity_precision⌉ : ℚ) /
            10 ^ si.quantity_precision := by
        apply div_pos _ (by positivity)
        exact_mod_cast hceil
      refine ⟨?_, fun _ => ?_, fun hge => absurd hge (not_le.mpr h1)⟩
      · constructor
        · intro h0
          exact absurd h0 (ne_of_gt hval)
        · rintro ⟨_, hlt⟩
          exact absurd h2 (not_le.mpr hlt)
      · have hle : si.min_notional / price ≤
            (⌈si.min_notional / price * 10 ^ si.quantity_precision⌉ : ℚ) /
              10 ^ si.quantity_precision := by
          rw [le_div_iff₀ (by positivity : (0:ℚ) < (10:ℚ) ^ si.quantity_precision)]
          exact Int.le_ceil _
        calc si.min_notional = si.min_notional / price * price := by field_simp
          _ ≤ _ := mul_le_mul_of_nonneg_right hle (le_of_lt hp)
    · rw [if_neg h2]
      exact ⟨by simp [h1, lt_of_not_le h2], fun h0 => absurd rfl h0,
        fun hge => absurd hge (not_le.mpr h1)⟩
  · rw [if_neg h1]
    have hge : si.min_notional ≤ round_step_size maxq (get_step_size si.min_qty) * price :=
      not_lt.mp h1
    refine ⟨?_, fun _ => hge, fun _ => rfl⟩
    constructor
    · intro h0
      rw [h0] at hge
      simp at hge
      exact absurd hge (not_le.mpr hmn)
    · rintro ⟨hlt, _⟩
      exact absurd hlt h1

/-! ## C2: the zero sentinel of `calculate_position_size` -/

/-- C2 (confirmed): with a positive price and positive minimum notional,
`calculate_position_size` returns 0 exactly in the listed failure cases:
symbol metadata unavailable; balance non-positive; stop-loss enabled with a
truthy stop price at zero distance from the price (the exact-arithmetic form
of the near-zero-distance guard `risk_per_unit <= 0`); or the minimum
notional unreachable without exceeding the pre-precision `max_quantity`.
All other paths return a nonzero quantity, and no case raises. -/
theorem calculate_position_size_zero_iff (cfg : Config) (st : RiskState) (balance : ℚ)
    (si : SymbolInfo) (pi : Option PositionInfo) (price : ℚ) (slp : Option ℚ)
    (hp : 0 < price) (hmn : 0 < si.min_notional) :
    ((calculate_position_size cfg st balance none pi price slp).1 = 0) ∧
    ((calculate_position_size cfg st balance (some si) pi price slp).1 = 0 ↔
      balance ≤ 0 ∨
      ((truthyQ slp && cfg.USE_STOP_LOSS) = true ∧ |price - slp.getD 0| ≤ 0) ∨
      (round_step_size (max_quantity_of cfg pi balance price slp)
          (get_step_size si.min_qty) * price < si.min_notional ∧
        max_quantity_of cfg pi balance price slp < si.min_notional / price)) := by
  constructor
  · unfold calculate_position_size
    split
    · rfl
    · rfl
  · by_cases hb : balance ≤ 0
    · have hres : (calculate_position_size cfg st balance (some si) pi price slp).1 = 0 := by
        unfold calculate_position_size
        rw [if_pos hb]
      rw [hres]
      simp [hb]
    · by_cases hg : (truthyQ slp && cfg.USE_STOP_LOSS) = true
      · by_cases habs : |price - slp.getD 0| ≤ 0
        · have hres : (calculate_position_size cfg st balance (some si) pi price slp).1 = 0 := by
            unfold calculate_position_size
            rw [if_neg hb]
            dsimp only
            rw [if_pos hg, if_pos habs]
          rw [hres]
          constructor
          · intro _
            exact Or.inr (Or.inl ⟨hg, habs⟩)
          · intro _
            rfl
        · rw [calculate_position_size_fst cfg st balance si pi price slp hb (fun _ => habs)]
          rw [(finish_position_size_cases si price
            (max_quantity_of cfg pi balance price slp) hp hmn).1]
          constructor
          · intro h
            exact Or.inr (Or.inr h)
          · rintro (h | ⟨_, habs2⟩ | h)
            · exact absurd h hb
            · exact absurd habs2 habs
            · exact h
      · rw [calculate_position_size_fst cfg st balance si pi price slp hb
          (fun hgg => absurd hgg hg)]
        rw [(finish_position_size_cases si price
          (max_quantity_of cfg pi balance price slp) hp hmn).1]
        constructor
        · intro h
          exact Or.inr (Or.inr h)
        · rintro (h | ⟨hg2, _⟩ | h)
          · exact absurd h hb
          · exact absurd hg2 hg
          · exact h

/-- C2 witness: at price 3, minimum notional 10, a balance of -5 is
non-positive; the characterization applies and the sentinel is 0. -/
theorem calculate_position_size_zero_iff_witness :
    ((calculate_position_size ⟨1/100, false, 0, false, 0, false, 0⟩ ⟨none, none⟩ (-5)
      none none 3 none).1 = 0) ∧
    ((calculate_position_size ⟨1/100, false, 0, false, 0, false, 0⟩ ⟨none, none⟩ (-5)
      (some ⟨3, 1/10, 10, 2⟩) none 3 none).1 = 0 ↔
      (-5 : ℚ) ≤ 0 ∨
      ((truthyQ none && (⟨1/100, false, 0, false, 0, false, 0⟩ : Config).USE_STOP_LOSS) = true ∧
        |(3 : ℚ) - (none : Option ℚ).getD 0| ≤ 0) ∨
      (round_step_size
          (max_quantity_of ⟨1/100, false, 0, false, 0, false, 0⟩ none (-5) 3 none)
          (get_step_size (⟨3, 1/10, 10, 2⟩ : SymbolInfo).min_qty) * 3 <
          (⟨3, 1/10, 10, 2⟩ : SymbolInfo).min_notional ∧
        max_quantity_of ⟨1/100, false, 0, false, 0, false, 0⟩ none (-5) 3 none <
          (⟨3, 1/10, 10, 2⟩ : SymbolInfo).min_notional / 3)) :=
  calculate_position_size_zero_iff ⟨1/100, false, 0, false, 0, false, 0⟩ ⟨none, none⟩ (-5)
    ⟨3, 1/10, 10, 2⟩ none 3 none (by norm_num) (by norm_num)

/-! ## C3: the two sizing formulas -/

/-- C3 (confirmed): when the balance is positive and the near-zero-distance
guard does not fire, the returned quantity is the precision/minimum-notional
post-processing of `(balance * RISK_PER_TRADE) / |price - stop_loss_price|`
when a truthy stop price is supplied with the stop-loss feature on, and of
`(balance * RISK_PER_TRADE * leverage) / price` otherwise, where the
leverage is the exchange-reported one and defaults to 1 without position
info. -/
theorem position_size_sizing_formula (cfg : Config) (st : RiskState) (balance : ℚ)
    (si : SymbolInfo) (pi : Option PositionInfo) (price : ℚ) (slp : Option ℚ)
    (hb : ¬ balance ≤ 0)
    (hg : (truthyQ slp && cfg.USE_STOP_LOSS) = true → ¬ |price - slp.getD 0| ≤ 0) :
    ((truthyQ slp && cfg.USE_STOP_LOSS) = true →
      (calculate_position_size cfg st balance (some si) pi price slp).1 =
        finish_position_size si price
          ((balance * cfg.RISK_PER_TRADE) / |price - slp.getD 0|)) ∧
    ((truthyQ slp && cfg.USE_STOP_LOSS) = false →
      (calculate_position_size cfg st balance (some si) pi price slp).1 =
        finish_position_size si price
          ((balance * cfg.RISK_PER_TRADE * get_current_leverage pi) / price)) ∧
    get_current_leverage none = 1 ∧
    (∀ q : PositionInfo, get_current_leverage (some q) = q.leverage) := by
  refine ⟨fun hc => ?_, fun hc => ?_, rfl, fun q => rfl⟩
  · rw [calculate_position_size_fst cfg st balance si pi price slp hb hg]
    unfold max_quantity_of
    rw [if_pos hc]
  · rw [calculate_position_size_fst cfg st balance si pi price slp hb
      (fun h => by rw [h] at hc; cases hc)]
    unfold max_quantity_of
    rw [if_neg (by rw [hc]; exact Bool.false_ne_true)]

/-- C3 witness: with the stop-loss feature on, balance 1000, risk fraction
1/100, price 100 and stop price 95, the quantity is the post-processing of
`(1000 * (1/100)) / |100 - 95|`. -/
theorem position_size_sizing_formula_witness :
    (calculate_position_size ⟨1/100, true, 0, false, 0, false, 0⟩ ⟨none, none⟩ 1000
        (some ⟨3, 1/10, 10, 2⟩) none 100 (some 95)).1 =
      finish_position_size ⟨3, 1/10, 10, 2⟩ 100 ((1000 * ((1:ℚ)/100)) / |(100 : ℚ) - 95|) :=
  (position_size_sizing_formula ⟨1/100, true, 0, false, 0, false, 0⟩ ⟨none, none⟩ 1000
      ⟨3, 1/10, 10, 2⟩ none 100 (some 95) (by norm_num)
      (fun _ => by norm_num)).1 (by norm_num [truthyQ])

/-! ## C10: a zero stop price is treated as absent -/

/-- C10 (confirmed): with the stop-loss feature enabled, passing
`stop_loss_price = 0` gives exactly the same result (quantity and state) as
passing no stop price at all — Python's `if stop_loss_price and
USE_STOP_LOSS` treats 0 as falsy — so the near-zero-distance guard is never
reached and the quantity is the post-processing of the leveraged notional
formula `(balance * RISK_PER_TRADE * leverage) / price`. -/
theorem zero_stop_loss_price_not_guarded (cfg : Config) (st : RiskState) (balance : ℚ)
    (osi : Option SymbolInfo) (pi : Option PositionInfo) (price : ℚ)
    (hsl : cfg.USE_STOP_LOSS = true) :
    calculate_position_size cfg st balance osi pi price (some 0) =
      calculate_position_size cfg st balance osi pi price none ∧
    (∀ si : SymbolInfo, osi = some si → ¬ balance ≤ 0 →
      (calculate_position_size cfg st balance osi pi price (some 0)).1 =
        finish_position_size si price
          ((balance * cfg.RISK_PER_TRADE * get_current_leverage pi) / price)) := by
  have ht : truthyQ (some 0) = false := by simp [truthyQ]
  constructor
  · unfold calculate_position_size max_quantity_of
    rw [ht]
    rfl
  · rintro si rfl hb
    rw [calculate_position_size_fst cfg st balance si pi price (some 0) hb
      (fun h => by rw [ht] at h; cases h)]
    unfold max_quantity_of
    rw [ht]
    rfl

/-- C10 witness: concrete instance with the stop-loss feature on, balance
200, price 4, stop price 0. -/
theorem zero_stop_loss_price_not_guarded_witness :
    calculate_position_size ⟨1/100, true, 1/50, false, 0, false, 0⟩ ⟨none, none⟩ 200
        (some ⟨3, 1/10, 10, 2⟩) none 4 (some 0) =
      calculate_position_size ⟨1/100, true, 1/50, false, 0, false, 0⟩ ⟨none, none⟩ 200
        (some ⟨3, 1/10, 10, 2⟩) none 4 none ∧
    (∀ si : SymbolInfo, (some (⟨3, 1/10, 10, 2⟩ : SymbolInfo) : Option SymbolInfo) = some si →
      ¬ (200 : ℚ) ≤ 0 →
      (calculate_position_size ⟨1/100, true, 1/50, false, 0, false, 0⟩ ⟨none, none⟩ 200
          (some ⟨3, 1/10, 10, 2⟩) none 4 (some 0)).1 =
        finish_position_size si 4
          ((200 * ((1:ℚ)/100) * get_current_leverage none) / 4)) :=
  zero_stop_loss_price_not_guarded ⟨1/100, true, 1/50, false, 0, false, 0⟩ ⟨none, none⟩ 200
    (some ⟨3, 1/10, 10, 2⟩) none 4 rfl

/-! ## C1: step-size multiples and the minimum notional -/

/-- C1 (corrected): with a positive price and a power-of-ten step size
`10^(-k)`, every nonzero returned quantity satisfies
`quantity * price ≥ min_notional`; and the quantity is an integer multiple
of the step size whenever the minimum-notional adjustment branch is not
taken (the step-floored quantity already meets the minimum notional).  In
the adjustment branch the quantity is instead rounded up with `ceil` at
`quantity_precision` decimals, so it can exceed the pre-precision
`max_quantity` and need not be a multiple of the step size (see the
counterexample). -/
theorem position_size_step_and_notional (cfg : Config) (st : RiskState) (balance : ℚ)
    (si : SymbolInfo) (pi : Option PositionInfo) (price : ℚ) (slp : Option ℚ) (k : ℕ)
    (hp : 0 < price) (hmn : 0 < si.min_notional)
    (hk : si.min_qty = (10 : ℚ) ^ (-(k : ℤ)))
    (hnz : (calculate_position_size cfg st balance (some si) pi price slp).1 ≠ 0) :
    si.min_notional ≤
      (calculate_position_size cfg st balance (some si) pi price slp).1 * price ∧
    (si.min_notional ≤ round_step_size (max_quantity_of cfg pi balance price slp)
        (get_step_size si.min_qty) * price →
      ∃ n : ℤ, (calculate_position_size cfg st balance (some si) pi price slp).1 =
        n * si.min_qty) := by
  by_cases hb : balance ≤ 0
  · exfalso
    apply hnz
    unfold calculate_position_size
    rw [if_pos hb]
  by_cases hgabs : (truthyQ slp && cfg.USE_STOP_LOSS) = true ∧ |price - slp.getD 0| ≤ 0
  · exfalso
    apply hnz
    unfold calculate_position_size
    rw [if_neg hb]
    dsimp only
    rw [if_pos hgabs.1, if_pos hgabs.2]
  have hg : (truthyQ slp && cfg.USE_STOP_LOSS) = true → ¬ |price - slp.getD 0| ≤ 0 :=
    fun hc habs => hgabs ⟨hc, habs⟩
  rw [calculate_position_size_fst cfg st balance si pi price slp hb hg] at hnz ⊢
  obtain ⟨-, hnot, hfloor⟩ := finish_position_size_cases si price
    (max_quantity_of cfg pi balance price slp) hp hmn
  refine ⟨hnot hnz, fun hge => ?_⟩
  rw [hfloor hge]
  rw [show get_step_size si.min_qty = (10 : ℚ) ^ (-(k : ℤ)) by rw [get_step_size, hk]]
  rw [round_step_size_zpow]
  refine ⟨⌊max_quantity_of cfg pi balance price slp * 10 ^ (k : ℤ)⌋, ?_⟩
  rw [hk, zpow_neg, div_eq_mul_inv]

/-- Configuration for the C1 theorems: risk fraction 1/10, every optional
feature off. -/
def riskCfg : Config := ⟨1/10, false, 0, false, 0, false, 0⟩

/-- Symbol info for the C1 theorems: quantity precision 3, step size 1/10,
minimum notional 10, price precision 2. -/
def riskSymbol : SymbolInfo := ⟨3, 1/10, 10, 2⟩

/-- C1 counterexample: balance 100, risk fraction 1/10, leverage 1, price 3
give `max_quantity = 10/3`; flooring to the step 0.1 gives 3.3, whose
notional 9.9 is below the minimum 10, so the code rounds `10/3` up at
quantity precision 3 and returns 3.334 — a nonzero quantity that is not a
multiple of the step size 0.1 and strictly exceeds the pre-precision
quantity (it was rounded up, not floored). -/
theorem position_size_ceil_breaks_step_multiple :
    (calculate_position_size riskCfg ⟨none, none⟩ 100 (some riskSymbol) none 3 none).1 =
      1667 / 500 ∧
    ¬ (∃ n : ℤ, (1667 : ℚ) / 500 = n * riskSymbol.min_qty) ∧
    max_quantity_of riskCfg none 100 3 none < 1667 / 500 := by
  have hmax : max_quantity_of riskCfg none 100 3 none = 10 / 3 := by
    unfold max_quantity_of truthyQ get_current_leverage riskCfg
    norm_num
  have hstep : get_step_size riskSymbol.min_qty = (10 : ℚ) ^ (-(1 : ℤ)) := by
    rw [get_step_size]
    norm_num [riskSymbol]
  have hfl : round_step_size (10 / 3) (get_step_size riskSymbol.min_qty) = 33 / 10 := by
    rw [hstep, round_step_size_zpow, zpow_one]
    rw [show ((10 : ℚ) / 3 * 10) = 100 / 3 by norm_num]
    rw [show ⌊(100 : ℚ) / 3⌋ = 33 by rw [Int.floor_eq_iff] <;> norm_num]
    norm_num
  have hres : (calculate_position_size riskCfg ⟨none, none⟩ 100
      (some riskSymbol) none 3 none).1 = 1667 / 500 := by
    rw [calculate_position_size_fst riskCfg ⟨none, none⟩ 100 riskSymbol none 3 none
      (by norm_num) (fun h => by simp [truthyQ, riskCfg] at h)]
    rw [hmax]
    unfold finish_position_size
    rw [hfl]
    rw [if_pos (by norm_num [riskSymbol])]
    rw [if_pos (by rw [show (riskSymbol.min_notional / 3 : ℚ) = 10 / 3 by norm_num [riskSymbol]])]
    rw [show (riskSymbol.min_notional / 3 * 10 ^ riskSymbol.quantity_precision : ℚ) =
      10000 / 3 by norm_num [riskSymbol]]
    rw [show ⌈(10000 : ℚ) / 3⌉ = 3334 by rw [Int.ceil_eq_iff] <;> norm_num]
    norm_num [riskSymbol]
  refine ⟨hres, ?_, by rw [hmax]; norm_num⟩
  rintro ⟨n, hn⟩
  rw [show riskSymbol.min_qty = (1 : ℚ) / 10 from rfl] at hn
  have h2 : (n : ℚ) * 50 = 1667 := by linarith
  have h3 : n * 50 = 1667 := by exact_mod_cast h2
  omega

/-- C1 witness: balance 100, risk 1/10, price 2 give `max_quantity = 5`,
floored to 5 with notional `10 ≥ 10`: the returned quantity 5 meets the
minimum notional and is a multiple of the step size 0.1. -/
theorem position_size_step_and_notional_witness :
    riskSymbol.min_notional ≤
      (calculate_position_size riskCfg ⟨none, none⟩ 100 (some riskSymbol) none 2 none).1 * 2 ∧
    (riskSymbol.min_notional ≤ round_step_size (max_quantity_of riskCfg none 100 2 none)
        (get_step_size riskSymbol.min_qty) * 2 →
      ∃ n : ℤ, (calculate_position_size riskCfg ⟨none, none⟩ 100
          (some riskSymbol) none 2 none).1 = n * riskSymbol.min_qty) := by
  have hnz : (calculate_position_size riskCfg ⟨none, none⟩ 100
      (some riskSymbol) none 2 none).1 ≠ 0 := by
    have hmax : max_quantity_of riskCfg none 100 2 none = 5 := by
      unfold max_quantity_of truthyQ get_current_leverage riskCfg
      norm_num
    have hstep : get_step_size riskSymbol.min_qty = (10 : ℚ) ^ (-(1 : ℤ)) := by
      rw [get_step_size]
      norm_num [riskSymbol]
    have hfl : round_step_size 5 (get_step_size riskSymbol.min_qty) = 5 := by
      rw [hstep, round_step_size_zpow, zpow_one]
      rw [show ((5 : ℚ) * 10) = 50 by norm_num]
      rw [show ⌊(50 : ℚ)⌋ = 50 by rw [Int.floor_eq_iff] <;> norm_num]
      norm_num
    rw [calculate_position_size_fst riskCfg ⟨none, none⟩ 100 riskSymbol none 2 none
      (by norm_num) (fun h => by simp [truthyQ, riskCfg] at h)]
    rw [hmax]
    unfold finish_position_size
    rw [hfl]
    rw [if_neg (by norm_num [riskSymbol])]
    norm_num
  exact position_size_step_and_notional riskCfg ⟨none, none⟩ 100 riskSymbol none 2 none 1
    (by norm_num) (by norm_num [riskSymbol]) (by norm_num [riskSymbol]) hnz
